import Mathlib

/-!
Verification of the scan-result intake webhook and the download filename
derivation of the civitai repository, against a shallow embedding of
`src/pages/api/webhooks/scan-result.ts`,
`src/pages/api/download/models/[modelVersionId].ts` and the relevant parts of
`prisma/schema.prisma`.

The database is modelled as explicit lists of rows; Prisma operations become
pure list transformations; the webhook handler becomes a function from the
request and the database state to the new database state plus an HTTP status.
-/

set_option maxRecDepth 100000

/-! ## Enumerations from prisma/schema.prisma -/

/-- `enum ModelStatus` of prisma/schema.prisma. -/
inductive ModelStatus where
  | Draft
  | Published
  | Unpublished
  | GatherInterest
deriving DecidableEq, Repr

/-- `enum ScanResultCode` of prisma/schema.prisma. -/
inductive ScanResultCode where
  | Pending
  | Success
  | Danger
  | Error
deriving DecidableEq, Repr

/-- `enum ModelFileFormat` of prisma/schema.prisma. -/
inductive ModelFileFormat where
  | PickleTensor
  | SafeTensor
  | Other
deriving DecidableEq, Repr

/-- `enum ModelHashType` of prisma/schema.prisma. -/
inductive ModelHashType where
  | AutoV1
  | AutoV2
  | SHA256
  | CRC32
  | BLAKE3
deriving DecidableEq, Repr

/-- `enum ModelType` of prisma/schema.prisma. -/
inductive ModelType where
  | Checkpoint
  | TextualInversion
  | Hypernetwork
  | AestheticGradient
  | LORA
deriving DecidableEq, Repr

/-- Modelled from the spec: the scanner task vocabulary (`ScannerTasks` comes
from `~/server/jobs/scan-files`, a file not included under src/); the spec
lists the tasks as the subset vocabulary {Import, Scan, Hash, Convert}. -/
inductive ScannerTask where
  | Import
  | Scan
  | Hash
  | Convert
deriving DecidableEq, Repr

/-! ## JS string builtins, modelled structurally so they evaluate by `decide` -/

/-- Contiguous-sublist test on character lists, structurally recursive so it
evaluates inside `decide`. -/
def listIsInfixOf : List Char → List Char → Bool
  | pat, [] => pat.isEmpty
  | pat, c :: rest => pat.isPrefixOf (c :: rest) || listIsInfixOf pat rest

/-- Substring test: JS `String.prototype.includes`. -/
def strIncludes (s sub : String) : Bool :=
  listIsInfixOf sub.data s.data

/-- Hexadecimal digit value, used by the percent-escape decoder. -/
def hexVal (c : Char) : Option Nat :=
  if '0' ≤ c ∧ c ≤ '9' then some (c.toNat - '0'.toNat)
  else if 'a' ≤ c ∧ c ≤ 'f' then some (c.toNat - 'a'.toNat + 10)
  else if 'A' ≤ c ∧ c ≤ 'F' then some (c.toNat - 'A'.toNat + 10)
  else none

/-- Single-byte model of JS `decodeURIComponent` on a character list: a `%`
followed by two hex digits decodes to the character with that code; other
characters pass through.  Multi-byte UTF-8 escape sequences are not
modelled, and a malformed escape (where the real builtin throws `URIError`)
is passed through literally; every string this development evaluates on is
plain ASCII without escapes, where the two agree. -/
def percentDecodeList : List Char → List Char
  | '%' :: a :: b :: rest =>
    match hexVal a, hexVal b with
    | some ha, some hb => Char.ofNat (16 * ha + hb) :: percentDecodeList rest
    | _, _ => '%' :: a :: b :: percentDecodeList rest
  | c :: rest => c :: percentDecodeList rest
  | [] => []

/-- JS `decodeURIComponent` (single-byte model, see `percentDecodeList`). -/
def percentDecode (s : String) : String :=
  String.mk (percentDecodeList s.data)

/-- JS `String.prototype.split` with a one-character separator. -/
def splitOnChar (sep : Char) : List Char → List (List Char)
  | [] => [[]]
  | c :: rest =>
    match splitOnChar sep rest with
    | [] => [[]]
    | h :: t => if c = sep then [] :: h :: t else (c :: h) :: t

/-- JS `String.prototype.trim` (modelled with `Char.isWhitespace`, which
covers the space, tab, newline and carriage-return characters that occur in
this development). -/
def trimChars (l : List Char) : List Char :=
  ((l.dropWhile Char.isWhitespace).reverse.dropWhile Char.isWhitespace).reverse

/-- JS `Array.prototype.indexOf`: index of the first occurrence, `-1` when
absent. -/
def jsIndexOf (l : List String) (x : String) : Int :=
  match l.findIdx? (fun y => y = x) with
  | some n => (n : Int)
  | none => -1

/-- JS `Array.prototype.splice(i, 1)`: remove one element at index `i`; a
negative index counts from the end (clamped at 0); an index past the end
removes nothing. -/
def spliceOne {α : Type} (l : List α) (i : Int) : List α :=
  let start : Nat := if i < 0 then ((l.length : Int) + i).toNat else i.toNat
  l.eraseIdx start

/-- JS `array.pop()` of a non-empty array, as used on the result of
`split('.')` (which is never empty): the last element. -/
def jsPopLast (l : List String) : String :=
  l.getLastD ""

/-! ## scan-result.ts: scanner payload and exit codes -/

/-! `enum ScanExitCode` of scan-result.ts.  The webhook body is unvalidated
JSON, so the exit codes are integers that may fall outside this enumeration;
they are modelled as `Int` constants. -/

namespace ScanExitCode

def Pending : Int := -1

def Success : Int := 0

def Danger : Int := 1

def Error : Int := 2

end ScanExitCode

/-- `type ScanResult` of scan-result.ts (the webhook request body).
`hashes` keeps the entries of the JS `Record` in object order. -/
structure ScanResult where
  url : String
  fileExists : Int
  picklescanExitCode : Int
  picklescanOutput : Option String := none
  picklescanGlobalImports : Option (List String) := none
  picklescanDangerousImports : Option (List String) := none
  clamscanExitCode : Int
  clamscanOutput : String
  hashes : Option (List (ModelHashType × String)) := none
deriving DecidableEq, Repr

/-- `resultCodeMap` of scan-result.ts: an object keyed by the four exit
codes; indexing with any other integer yields `undefined` (here `none`). -/
def resultCodeMap (code : Int) : Option ScanResultCode :=
  if code = ScanExitCode.Pending then some ScanResultCode.Pending
  else if code = ScanExitCode.Success then some ScanResultCode.Success
  else if code = ScanExitCode.Danger then some ScanResultCode.Danger
  else if code = ScanExitCode.Error then some ScanResultCode.Error
  else none

/-- `processImport` of scan-result.ts: decode percent-escapes, split on
commas, strip apostrophes and surrounding whitespace from each part, and
join the parts with dots. -/
def processImport (importStr : String) : String :=
  let decoded := percentDecode importStr
  let importParts := (splitOnChar ',' decoded.data).map
    (fun x => String.mk (trimChars (x.filter (fun c => !(c = '\'')))))
  String.intercalate "." importParts

/-- `specialImports` of scan-result.ts. -/
def specialImports : List String :=
  ["pytorch_lightning.callbacks.model_checkpoint.ModelCheckpoint"]

/-- Result of `examinePickleScanMessage`.  `dImports`/`gImports` are the
dangerous/global import arrays after the function's in-place mutation, kept
so that the handler can store the mutated body as `rawScanResult`. -/
structure ExamineResult where
  pickleScanMessage : Option String
  hasDanger : Bool
  dImports : List String
  gImports : List String
deriving DecidableEq, Repr

/-- `examinePickleScanMessage` of scan-result.ts.  A pending picklescan exit
code returns the empty object (no message, no danger).  Otherwise the import
lists are defaulted to empty, global imports whose processed form is on the
`specialImports` allowlist are moved (push into dangerous, splice out of
global at the index JS computes from `indexOf` on the dangerous array), and
the markdown message is assembled. -/
def examinePickleScanMessage (s : ScanResult) : ExamineResult :=
  if s.picklescanExitCode = ScanExitCode.Pending then
    { pickleScanMessage := none, hasDanger := false,
      dImports := s.picklescanDangerousImports.getD [],
      gImports := s.picklescanGlobalImports.getD [] }
  else
    let d := s.picklescanDangerousImports.getD []
    let g := s.picklescanGlobalImports.getD []
    let importCount := d.length + g.length
    -- the source's second disjunct (both arrays null) is vacuous after the
    -- `??=` defaulting above, so the condition reduces to the count test
    if importCount = 0 then
      { pickleScanMessage := some "No Pickle imports", hasDanger := false,
        dImports := d, gImports := g }
    else
      let dangerousGlobals := g.filter (fun x => specialImports.contains (processImport x))
      let moved := dangerousGlobals.foldl
        (fun (acc : List String × List String) imp =>
          let d2 := acc.1 ++ [imp]
          (d2, spliceOne acc.2 (jsIndexOf d2 imp)))
        (d, g)
      let hasDanger := moved.1.length > 0
      let lines := ["**Detected Pickle imports (" ++ toString importCount ++ ")**"]
        ++ (if hasDanger then ["*Dangerous import detected*"] else [])
        ++ ["```"]
        ++ moved.1.map (fun imp => "*" ++ processImport imp ++ "*")
        ++ moved.2.map processImport
        ++ ["```"]
      { pickleScanMessage := some (String.intercalate "\n" lines),
        hasDanger := hasDanger,
        dImports := moved.1, gImports := moved.2 }

/-! ## Database rows (prisma/schema.prisma), as explicit list-backed state -/

/-- `model ModelFile` of prisma/schema.prisma (the columns this slice reads
or writes).  The `exists` column is named `existsFlag` because `exists` is a
Lean keyword; `scannedAt` timestamps are modelled as `Nat`. -/
structure ModelFile where
  id : Nat
  name : String := ""
  url : String
  type : String := "Model"
  format : ModelFileFormat := ModelFileFormat.Other
  modelVersionId : Nat
  pickleScanResult : ScanResultCode := ScanResultCode.Pending
  pickleScanMessage : Option String := none
  virusScanResult : ScanResultCode := ScanResultCode.Pending
  virusScanMessage : Option String := none
  scannedAt : Option Nat := none
  rawScanResult : Option ScanResult := none
  existsFlag : Option Bool := none
deriving DecidableEq, Repr

/-- `model ModelHash` of prisma/schema.prisma: one content hash of one file,
keyed by (file, algorithm). -/
structure ModelHashRow where
  fileId : Nat
  type : ModelHashType
  hash : String
deriving DecidableEq, Repr

/-- `model ModelVersion` of prisma/schema.prisma (the columns this slice
touches). -/
structure ModelVersion where
  id : Nat
  modelId : Nat
  status : ModelStatus := ModelStatus.Draft
deriving DecidableEq, Repr

/-- `model Model` of prisma/schema.prisma (the columns this slice touches). -/
structure ModelRow where
  id : Nat
  status : ModelStatus := ModelStatus.Draft
deriving DecidableEq, Repr

/-- The relational state the scan-result webhook reads and writes. -/
@[ext]
structure Db where
  files : List ModelFile
  hashes : List ModelHashRow
  versions : List ModelVersion
  models : List ModelRow
deriving DecidableEq, Repr

/-! ## unpublish (scan-result.ts lines 76-107) -/

/-- `prisma.modelVersion.update({where: {id}, data: {status}})`: set the
status of the row with the given id. -/
def updateVersionStatus (mvId : Nat) (st : ModelStatus) (vs : List ModelVersion) :
    List ModelVersion :=
  vs.map (fun v => if v.id = mvId then { v with status := st } else v)

/-- The `_count` select of `unpublish`: how many versions of the model are
`Published`. -/
def countPublishedVersions (vs : List ModelVersion) (modelId : Nat) : Nat :=
  (vs.filter (fun v => decide (v.modelId = modelId ∧ v.status = ModelStatus.Published))).length

/-- `prisma.model.update({where: {id: modelId}, data: {status: Unpublished}})`. -/
def setModelUnpublished (modelId : Nat) (models : List ModelRow) : List ModelRow :=
  models.map (fun m => if m.id = modelId then { m with status := ModelStatus.Unpublished } else m)

/-- The model-level phase of `unpublish` (scan-result.ts lines 82-106),
operating on the state after the version-status update: look the version's
`modelId` up; if the model id is truthy, the model row exists, and the
model's `Published`-version count is zero, set the model's status to
`Unpublished`. -/
def unpublishModelPhase (mvId : Nat) (db1 : Db) : Db :=
  match (db1.versions.find? (fun v => decide (v.id = mvId))).map ModelVersion.modelId with
  | none => db1
  | some modelId =>
    -- JS `if (modelId)`: a model id of 0 is falsy and skips the model check
    if modelId = 0 then db1
    else
      match db1.models.find? (fun m => decide (m.id = modelId)) with
      | none => db1
      | some _ =>
        if countPublishedVersions db1.versions modelId = 0 then
          { db1 with models := setModelUnpublished modelId db1.models }
        else db1

/-- `unpublish` of scan-result.ts: set the version's status to `Draft`; then
run the model-level phase, whose `Published`-version count is re-queried
after (and therefore sees) the version update. -/
def unpublish (mvId : Nat) (db : Db) : Db :=
  unpublishModelPhase mvId
    { db with versions := updateVersionStatus mvId ModelStatus.Draft db.versions }

/-! ## The webhook handler (scan-result.ts lines 16-74) -/

/-- The parsed query string of the webhook (`querySchema`). -/
structure ScanQuery where
  modelVersionId : Nat
  type : String
  format : ModelFileFormat
  tasks : Option (List ScannerTask) := none
deriving DecidableEq, Repr

/-- The `modelVersionId_type_format` unique-key lookup predicate. -/
def fileKeyMatch (q : ScanQuery) (f : ModelFile) : Bool :=
  decide (f.modelVersionId = q.modelVersionId ∧ f.type = q.type ∧ f.format = q.format)

/-- The `data : Prisma.ModelFileUpdateInput` object accumulated by the
handler: `none` means the key is absent from `data`, so the column is left
unchanged by the update. -/
structure FileUpdate where
  scannedAt : Option Nat := none
  rawScanResult : Option ScanResult := none
  virusScanResult : Option ScanResultCode := none
  virusScanMessage : Option (Option String) := none
  pickleScanResult : Option ScanResultCode := none
  pickleScanMessage : Option String := none
  existsFlag : Option Bool := none
  url : Option String := none
deriving DecidableEq, Repr

/-- `Object.keys(data).length > 0` is false exactly when no task assigned any
key. -/
def FileUpdate.isEmpty (u : FileUpdate) : Bool :=
  u.scannedAt.isNone && u.rawScanResult.isNone && u.virusScanResult.isNone &&
    u.virusScanMessage.isNone && u.pickleScanResult.isNone &&
    u.pickleScanMessage.isNone && u.existsFlag.isNone && u.url.isNone

/-- Apply the accumulated `data` object to a file row (`prisma.modelFile.update`). -/
def applyFileUpdate (u : FileUpdate) (f : ModelFile) : ModelFile :=
  { f with
    scannedAt :=
      match u.scannedAt with
      | some t => some t
      | none => f.scannedAt,
    rawScanResult :=
      match u.rawScanResult with
      | some r => some r
      | none => f.rawScanResult,
    virusScanResult := u.virusScanResult.getD f.virusScanResult,
    virusScanMessage := u.virusScanMessage.getD f.virusScanMessage,
    pickleScanResult := u.pickleScanResult.getD f.pickleScanResult,
    pickleScanMessage :=
      match u.pickleScanMessage with
      | some s => some s
      | none => f.pickleScanMessage,
    existsFlag :=
      match u.existsFlag with
      | some b => some b
      | none => f.existsFlag,
    url := u.url.getD f.url }

/-- The serialized state of the mutable `scanResult` body at the time of the
`prisma.modelFile.update` call: `examinePickleScanMessage` mutates the import
arrays in place (only when they were present), and the handler overrides
`picklescanExitCode` to `Danger` after the verdict columns were computed. -/
def mutatedScanResult (body : ScanResult) (ex : ExamineResult) : ScanResult :=
  { body with
    picklescanExitCode :=
      if ex.hasDanger then ScanExitCode.Danger else body.picklescanExitCode,
    picklescanDangerousImports := body.picklescanDangerousImports.map (fun _ => ex.dImports),
    picklescanGlobalImports := body.picklescanGlobalImports.map (fun _ => ex.gImports) }

/-- The Scan task's contribution to `data` (scan-result.ts lines 32-43).
`pickleScanResult` is computed from the exit code on line 38, before line 42
overrides `scanResult.picklescanExitCode` on danger, so the stored verdict
column never sees that override; only the raw JSON blob does. -/
def scanUpdate (now : Nat) (body : ScanResult) : FileUpdate :=
  let ex := examinePickleScanMessage body
  { scannedAt := some now,
    rawScanResult := some (mutatedScanResult body ex),
    virusScanResult := resultCodeMap body.clamscanExitCode,
    virusScanMessage :=
      some (if body.clamscanExitCode = ScanExitCode.Success then none else some body.clamscanOutput),
    pickleScanResult := resultCodeMap body.picklescanExitCode,
    pickleScanMessage := ex.pickleScanMessage }

/-- The Import task's contribution to `data` (scan-result.ts lines 46-52,
without the unpublish side effect): record the existence flag, and adopt the
scanner's URL when the file exists, the current URL does not contain the
permanent bucket, and the scanner's URL does. -/
def importUpdate (bucket fileUrl : String) (body : ScanResult) (u : FileUpdate) : FileUpdate :=
  let fileDoesExist : Bool := decide (body.fileExists = 1)
  let scannerImportedFile : Bool := !(strIncludes fileUrl bucket) && strIncludes body.url bucket
  { u with
    existsFlag := some fileDoesExist,
    url := if fileDoesExist && scannerImportedFile then some body.url else u.url }

/-- The `data` object after the Scan and Import tasks have contributed their
keys (scan-result.ts lines 29-52). -/
def accumulatedUpdate (bucket : String) (now : Nat) (tasks : List ScannerTask)
    (fileUrl : String) (body : ScanResult) : FileUpdate :=
  let upd0 := if ScannerTask.Scan ∈ tasks then scanUpdate now body else {}
  if ScannerTask.Import ∈ tasks then importUpdate bucket fileUrl body upd0 else upd0

/-- The task-processing part of the webhook handler (scan-result.ts lines
29-73), reached once the file row `f` has been found and passed the
truthiness check. -/
def scanResultCore (bucket : String) (now : Nat) (q : ScanQuery) (body : ScanResult)
    (f : ModelFile) (db : Db) : Db × Nat :=
  let tasks := q.tasks.getD [ScannerTask.Import, ScannerTask.Scan, ScannerTask.Hash]
  let upd := accumulatedUpdate bucket now tasks f.url body
  -- `if (!data.exists) await unpublish(modelVersionId)` runs before the
  -- file update, and only the Import task sets `data.exists`
  let db1 := if ScannerTask.Import ∈ tasks ∧ ¬body.fileExists = 1 then
      unpublish q.modelVersionId db
    else db
  let files2 := db1.files.map
    (fun g => if fileKeyMatch q g then applyFileUpdate upd g else g)
  let db2 := if upd.isEmpty then db1 else { db1 with files := files2 }
  -- `if (tasks.includes('Hash') && scanResult.hashes)`: delete all hash
  -- rows of the file, then insert the reported entries
  let db3 := if ScannerTask.Hash ∈ tasks then
      match body.hashes with
      | none => db2
      | some hs =>
        let hashes2 := db2.hashes.filter (fun h => decide (¬h.fileId = f.id)) ++
          hs.map (fun p => { fileId := f.id, type := p.1, hash := p.2 })
        { db2 with hashes := hashes2 }
    else db2
  (db3, 200)

/-- The scan-result webhook handler (the default export of scan-result.ts),
after query parsing, for a POST request: returns the new database state and
the HTTP status code.  `bucket` is `env.S3_UPLOAD_BUCKET`; `now` is the
wall-clock time recorded as `scannedAt`. -/
def scanResultHandler (bucket : String) (now : Nat) (q : ScanQuery) (body : ScanResult)
    (db : Db) : Db × Nat :=
  match db.files.find? (fileKeyMatch q) with
  | none => (db, 404)
  | some f =>
    -- JS `if (!url || !fileId)`: an empty url or a zero id is falsy
    if f.url = "" ∨ f.id = 0 then (db, 404)
    else scanResultCore bucket now q body f db

/-! ## Download filename derivation ([modelVersionId].ts lines 98-131) -/

/-- Modelled from the spec: the fixed model-file-type vocabulary
(`constants.modelFileTypes` from `~/server/common/constants`, a file not
included under src/); the members are the spec's file-type examples
("Model", "Training Data", "VAE") together with the types the included code
branches on ("Pruned Model", "Negative", "Text Encoder"). -/
def modelFileTypes : List String :=
  ["Model", "Pruned Model", "Negative", "Training Data", "VAE", "Text Encoder"]

/-- The `model` argument of `getDownloadFilename`. -/
structure DlModel where
  name : String
  type : ModelType
deriving DecidableEq, Repr

/-- The `modelVersion` argument of `getDownloadFilename`. -/
structure DlModelVersion where
  name : String
  trainedWords : List String
deriving DecidableEq, Repr

/-- The `file` argument of `getDownloadFilename`. -/
structure DlFile where
  name : String
  type : String
deriving DecidableEq, Repr

/-- Replace the first occurrence of a pattern in a character list, leaving
the list unchanged when the (non-empty) pattern does not occur. -/
def replaceFirstCharsGo (pat rep : List Char) : List Char → List Char
  | [] => []
  | c :: rest =>
    if List.isPrefixOf pat (c :: rest) then rep ++ List.drop pat.length (c :: rest)
    else c :: replaceFirstCharsGo pat rep rest

/-- JS `String.prototype.replace` with a plain-string pattern: replace the
first occurrence only; an empty pattern matches at index 0. -/
def jsReplaceFirst (s pat rep : String) : String :=
  if pat.data = [] then String.mk (rep.data ++ s.data)
  else String.mk (replaceFirstCharsGo pat.data rep.data s.data)

/-- `getDownloadFilename` of [modelVersionId].ts.  `filenamize` (from
`~/utils/string-helpers`, a file not included under src/, and irrelevant to
every claim about this function) is taken as a parameter. -/
def getDownloadFilename (filenamize : String → String) (model : DlModel)
    (modelVersion : DlModelVersion) (file : DlFile) : String :=
  let modelName := filenamize model.name
  let versionName := jsReplaceFirst (filenamize modelVersion.name) modelName ""
  let ext := jsPopLast ((splitOnChar '.' file.name.data).map String.mk)
  if ¬modelFileTypes.contains file.type then file.name
  else
    let fileType := file.type
    if fileType = "Training Data" then modelName ++ "_" ++ versionName ++ "_trainingData.zip"
    else if model.type = ModelType.TextualInversion then
      let fileSuffix := if fileType = "Negative" then "-neg" else ""
      -- JS `trainedWords[0]` is undefined on an empty array, and
      -- `if (trainedWord)` keeps the stored name for undefined or ""
      match modelVersion.trainedWords.head? with
      | some trainedWord =>
        if trainedWord = "" then file.name else trainedWord ++ fileSuffix ++ "." ++ ext
      | none => file.name
    else if ¬fileType = "VAE" then
      let fileSuffix := if strIncludes file.name "-inpainting" then "-inpainting"
        else if fileType = "Text Encoder" then "_txt" else ""
      modelName ++ "_" ++ versionName ++ fileSuffix ++ "." ++ ext
    else file.name

/-! ## Concrete instances used by witnesses and counterexamples -/

def qC2 : ScanQuery :=
  { modelVersionId := 10, type := "Model", format := ModelFileFormat.PickleTensor,
    tasks := some [ScannerTask.Import] }

def bodyC2 : ScanResult :=
  { url := "", fileExists := 0, picklescanExitCode := 0, clamscanExitCode := 0,
    clamscanOutput := "" }

def fC2 : ModelFile :=
  { id := 1, url := "https://host/file.ckpt", type := "Model",
    format := ModelFileFormat.PickleTensor, modelVersionId := 10 }

def vC2 : ModelVersion := { id := 10, modelId := 3, status := ModelStatus.Published }

def mC2 : ModelRow := { id := 3, status := ModelStatus.Published }

def dbC2 : Db := { files := [fC2], hashes := [], versions := [vC2], models := [mC2] }

def vC3b : ModelVersion := { id := 11, modelId := 3, status := ModelStatus.Published }

def dbC3 : Db := { files := [fC2], hashes := [], versions := [vC2, vC3b], models := [mC2] }

def qC4 : ScanQuery :=
  { modelVersionId := 10, type := "Model", format := ModelFileFormat.PickleTensor,
    tasks := some [ScannerTask.Hash] }

def bodyC4 : ScanResult :=
  { url := "", fileExists := 1, picklescanExitCode := 0, clamscanExitCode := 0,
    clamscanOutput := "",
    hashes := some [(ModelHashType.SHA256, "abc123"), (ModelHashType.CRC32, "9f")] }

def dbC4 : Db :=
  { files := [fC2],
    hashes := [{ fileId := 1, type := ModelHashType.AutoV1, hash := "old1" },
      { fileId := 1, type := ModelHashType.SHA256, hash := "old2" },
      { fileId := 2, type := ModelHashType.SHA256, hash := "other" }],
    versions := [vC2], models := [mC2] }

def qC6 : ScanQuery :=
  { modelVersionId := 10, type := "Model", format := ModelFileFormat.PickleTensor,
    tasks := some [ScannerTask.Import] }

def fC6 : ModelFile :=
  { id := 1, url := "https://temp-host/file.ckpt", type := "Model",
    format := ModelFileFormat.PickleTensor, modelVersionId := 10 }

def bodyC6 : ScanResult :=
  { url := "https://s3.host/model-share/file.ckpt", fileExists := 1, picklescanExitCode := 0,
    clamscanExitCode := 0, clamscanOutput := "" }

def dbC6 : Db := { files := [fC6], hashes := [], versions := [vC2], models := [mC2] }

def qC7 : ScanQuery :=
  { modelVersionId := 10, type := "Model", format := ModelFileFormat.PickleTensor,
    tasks := some [ScannerTask.Scan] }

def bodyC7 : ScanResult :=
  { url := "", fileExists := 1, picklescanExitCode := 0, clamscanExitCode := 0,
    clamscanOutput := "" }

def qC1 : ScanQuery :=
  { modelVersionId := 10, type := "Model", format := ModelFileFormat.PickleTensor,
    tasks := some [ScannerTask.Scan] }

def bodyC1 : ScanResult :=
  { url := "", fileExists := 1, picklescanExitCode := 0,
    picklescanGlobalImports :=
      some ["pytorch_lightning.callbacks.model_checkpoint, ModelCheckpoint"],
    clamscanExitCode := 0, clamscanOutput := "" }

/-! ## Helper lemmas -/

theorem find?_map_pred {α : Type} (g : α → α) (p : α → Bool)
    (hp : ∀ a, p (g a) = p a) (l : List α) :
    (l.map g).find? p = (l.find? p).map g := by
  induction l with
  | nil => rfl
  | cons a t ih =>
    by_cases h : p a = true
    · rw [List.map_cons, List.find?_cons_of_pos _ (by rw [hp]; exact h),
        List.find?_cons_of_pos _ h, Option.map_some']
    · rw [List.map_cons, List.find?_cons_of_neg _ (by rw [hp]; simpa using h),
        List.find?_cons_of_neg _ (by simpa using h), ih]

theorem map_self_idem {α : Type} (g : α → α) (hg : ∀ a, g (g a) = g a) (l : List α) :
    (l.map g).map g = l.map g := by
  induction l with
  | nil => rfl
  | cons a t ih => simp only [List.map_cons, hg, ih]

theorem updateVersionStatus_idem (mvId : Nat) (st : ModelStatus) (vs : List ModelVersion) :
    updateVersionStatus mvId st (updateVersionStatus mvId st vs) =
      updateVersionStatus mvId st vs := by
  unfold updateVersionStatus
  exact map_self_idem _ (fun v => by by_cases h : v.id = mvId <;> simp [h]) vs

theorem unpublishModelPhase_files (mvId : Nat) (db1 : Db) :
    (unpublishModelPhase mvId db1).files = db1.files := by
  unfold unpublishModelPhase
  repeat' split
  all_goals rfl

theorem unpublishModelPhase_hashes (mvId : Nat) (db1 : Db) :
    (unpublishModelPhase mvId db1).hashes = db1.hashes := by
  unfold unpublishModelPhase
  repeat' split
  all_goals rfl

theorem unpublishModelPhase_versions (mvId : Nat) (db1 : Db) :
    (unpublishModelPhase mvId db1).versions = db1.versions := by
  unfold unpublishModelPhase
  repeat' split
  all_goals rfl

theorem unpublish_files (mvId : Nat) (db : Db) : (unpublish mvId db).files = db.files := by
  unfold unpublish
  rw [unpublishModelPhase_files]

theorem unpublish_hashes (mvId : Nat) (db : Db) : (unpublish mvId db).hashes = db.hashes := by
  unfold unpublish
  rw [unpublishModelPhase_hashes]

theorem unpublish_versions (mvId : Nat) (db : Db) :
    (unpublish mvId db).versions = updateVersionStatus mvId ModelStatus.Draft db.versions := by
  unfold unpublish
  rw [unpublishModelPhase_versions]

/-- When the version list is already a fixed point of the Draft update (as it
is after a first `unpublish` run), the initial version update of `unpublish`
is the identity and the function reduces to its model-level phase. -/
theorem unpublish_of_fixed (mvId : Nat) (r : Db)
    (hfix : updateVersionStatus mvId ModelStatus.Draft r.versions = r.versions) :
    unpublish mvId r = unpublishModelPhase mvId r := by
  unfold unpublish
  rw [hfix]

theorem unpublishModelPhase_idem (mvId : Nat) (db1 : Db) :
    unpublishModelPhase mvId (unpublishModelPhase mvId db1) = unpublishModelPhase mvId db1 := by
  rcases homid : (db1.versions.find? (fun v => decide (v.id = mvId))).map ModelVersion.modelId
    with _ | mid
  · have h1 : unpublishModelPhase mvId db1 = db1 := by
      simp only [unpublishModelPhase, homid]
    rw [h1, h1]
  · by_cases hmid : mid = 0
    · have h1 : unpublishModelPhase mvId db1 = db1 := by
        simp only [unpublishModelPhase, homid, if_pos hmid]
      rw [h1, h1]
    · rcases hfm : db1.models.find? (fun m => decide (m.id = mid)) with _ | m0
      · have h1 : unpublishModelPhase mvId db1 = db1 := by
          simp only [unpublishModelPhase, homid, if_neg hmid, hfm]
        rw [h1, h1]
      · by_cases hcnt : countPublishedVersions db1.versions mid = 0
        · have h1 : unpublishModelPhase mvId db1 =
              { db1 with models := setModelUnpublished mid db1.models } := by
            simp only [unpublishModelPhase, homid, if_neg hmid, hfm, if_pos hcnt]
          have hidp : ∀ m : ModelRow,
              (decide ((if m.id = mid then { m with status := ModelStatus.Unpublished } else m).id
                = mid) : Bool)
              = decide (m.id = mid) := by
            intro m
            by_cases h : m.id = mid <;> simp [h]
          have hfm2 : (setModelUnpublished mid db1.models).find? (fun m => decide (m.id = mid))
              = some (if m0.id = mid then { m0 with status := ModelStatus.Unpublished } else m0) := by
            unfold setModelUnpublished
            rw [find?_map_pred _ _ hidp, hfm, Option.map_some']
          have hmm : setModelUnpublished mid (setModelUnpublished mid db1.models)
              = setModelUnpublished mid db1.models := by
            unfold setModelUnpublished
            exact map_self_idem _ (fun m => by by_cases h : m.id = mid <;> simp [h]) _
          rw [h1]
          simp only [unpublishModelPhase, homid, if_neg hmid, hfm2, if_pos hcnt, hmm]
        · have h1 : unpublishModelPhase mvId db1 = db1 := by
            simp only [unpublishModelPhase, homid, if_neg hmid, hfm, if_neg hcnt]
          rw [h1, h1]

theorem scanResultHandler_found (bucket : String) (now : Nat) (q : ScanQuery)
    (body : ScanResult) (db : Db) (f : ModelFile)
    (hfind : db.files.find? (fileKeyMatch q) = some f)
    (hurl : ¬f.url = "") (hid : ¬f.id = 0) :
    scanResultHandler bucket now q body db = scanResultCore bucket now q body f db := by
  unfold scanResultHandler
  rw [hfind]
  exact if_neg (not_or.mpr ⟨hurl, hid⟩)

theorem scanResultCore_versions (bucket : String) (now : Nat) (q : ScanQuery)
    (body : ScanResult) (f : ModelFile) (db : Db) :
    (scanResultCore bucket now q body f db).1.versions =
      (if ScannerTask.Import ∈ q.tasks.getD [ScannerTask.Import, ScannerTask.Scan, ScannerTask.Hash]
          ∧ ¬body.fileExists = 1 then
        unpublish q.modelVersionId db
      else db).versions := by
  unfold scanResultCore
  dsimp only
  repeat' split
  all_goals rfl

theorem scanResultCore_models (bucket : String) (now : Nat) (q : ScanQuery)
    (body : ScanResult) (f : ModelFile) (db : Db) :
    (scanResultCore bucket now q body f db).1.models =
      (if ScannerTask.Import ∈ q.tasks.getD [ScannerTask.Import, ScannerTask.Scan, ScannerTask.Hash]
          ∧ ¬body.fileExists = 1 then
        unpublish q.modelVersionId db
      else db).models := by
  unfold scanResultCore
  dsimp only
  repeat' split
  all_goals rfl

theorem updateVersionStatus_mem_status (mvId : Nat) (st : ModelStatus) (vs : List ModelVersion) :
    ∀ v ∈ updateVersionStatus mvId st vs, v.id = mvId → v.status = st := by
  intro v hv hvid
  unfold updateVersionStatus at hv
  rcases List.mem_map.mp hv with ⟨w, _, rfl⟩
  by_cases h : w.id = mvId
  · simp [h]
  · rw [if_neg h] at hvid ⊢
    exact absurd hvid h

theorem setModelUnpublished_mem (mid : Nat) (models : List ModelRow) :
    ∀ mo ∈ setModelUnpublished mid models, mo.id = mid →
      mo.status = ModelStatus.Unpublished := by
  intro mo hmo hmid
  unfold setModelUnpublished at hmo
  rcases List.mem_map.mp hmo with ⟨w, _, rfl⟩
  by_cases h : w.id = mid
  · simp [h]
  · rw [if_neg h] at hmid ⊢
    exact absurd hmid h

theorem find?_updateVersionStatus (mvId : Nat) (st : ModelStatus) (vs : List ModelVersion)
    (v : ModelVersion) (hv : vs.find? (fun w => decide (w.id = mvId)) = some v) :
    (updateVersionStatus mvId st vs).find? (fun w => decide (w.id = mvId))
      = some (if v.id = mvId then { v with status := st } else v) := by
  unfold updateVersionStatus
  rw [find?_map_pred _ _ (fun a => by by_cases h : a.id = mvId <;> simp [h]), hv,
    Option.map_some']

theorem updated_modelId (mvId : Nat) (st : ModelStatus) (v : ModelVersion) :
    (if v.id = mvId then { v with status := st } else v).modelId = v.modelId := by
  by_cases h : v.id = mvId <;> simp [h]

theorem count_zero_of_only (mvId mid : Nat) (vs : List ModelVersion)
    (honly : ∀ w ∈ vs, w.modelId = mid → w.status = ModelStatus.Published → w.id = mvId) :
    countPublishedVersions (updateVersionStatus mvId ModelStatus.Draft vs) mid = 0 := by
  unfold countPublishedVersions
  rw [List.length_eq_zero, List.filter_eq_nil_iff]
  intro a ha
  rcases List.mem_map.mp ha with ⟨w, hw, rfl⟩
  by_cases h : w.id = mvId
  · simp [h]
  · rw [if_neg h]
    simp only [decide_eq_true_eq, not_and]
    intro hmid hpub
    exact absurd (honly w hw hmid hpub) h

theorem unpublish_models_of_count_zero (mvId : Nat) (db : Db) (v : ModelVersion)
    (hv : db.versions.find? (fun w => decide (w.id = mvId)) = some v)
    (hm0 : ¬v.modelId = 0)
    (hmrow : ∃ mo ∈ db.models, mo.id = v.modelId)
    (hcnt : countPublishedVersions (updateVersionStatus mvId ModelStatus.Draft db.versions)
      v.modelId = 0) :
    (unpublish mvId db).models = setModelUnpublished v.modelId db.models := by
  unfold unpublish unpublishModelPhase
  dsimp only
  rw [find?_updateVersionStatus mvId ModelStatus.Draft db.versions v hv]
  dsimp only [Option.map_some']
  rw [updated_modelId mvId ModelStatus.Draft v, if_neg hm0]
  rcases hmrow with ⟨mo, hmo, hmoid⟩
  have hsome : ∃ x, db.models.find? (fun m => decide (m.id = v.modelId)) = some x := by
    rw [← Option.isSome_iff_exists, List.find?_isSome]
    exact ⟨mo, hmo, by simp [hmoid]⟩
  rcases hsome with ⟨x, hx⟩
  rw [hx, if_pos hcnt]

theorem unpublish_models_of_other_published (mvId : Nat) (db : Db) (v w : ModelVersion)
    (hv : db.versions.find? (fun x => decide (x.id = mvId)) = some v)
    (hw : w ∈ db.versions) (hwid : ¬w.id = mvId) (hwm : w.modelId = v.modelId)
    (hwp : w.status = ModelStatus.Published) :
    (unpublish mvId db).models = db.models := by
  unfold unpublish unpublishModelPhase
  dsimp only
  rw [find?_updateVersionStatus mvId ModelStatus.Draft db.versions v hv]
  dsimp only [Option.map_some']
  rw [updated_modelId mvId ModelStatus.Draft v]
  by_cases hm0 : v.modelId = 0
  · rw [if_pos hm0]
  · rw [if_neg hm0]
    rcases hfm : db.models.find? (fun m => decide (m.id = v.modelId)) with _ | m0
    · rw [hfm]
    · have hcnt : ¬countPublishedVersions (updateVersionStatus mvId ModelStatus.Draft db.versions)
          v.modelId = 0 := by
        unfold countPublishedVersions
        rw [List.length_eq_zero]
        intro hnil
        have hmem : w ∈ updateVersionStatus mvId ModelStatus.Draft db.versions := by
          unfold updateVersionStatus
          exact List.mem_map.mpr ⟨w, hw, by rw [if_neg hwid]⟩
        have : w ∈ ([] : List ModelVersion) := by
          rw [← hnil]
          exact List.mem_filter.mpr ⟨hmem, by simp [hwm, hwp]⟩
        exact absurd this (List.not_mem_nil w)
      rw [hfm, if_neg hcnt]

/-! ## Claim theorems -/

/-- C2: for an intake call whose tasks include Import and whose payload
reports `fileExists` false, where the file's owning model version is the only
`Published` version of its model, the handler leaves that version with status
`Draft` and the model with status `Unpublished`; the re-queried
`Published`-version count, evaluated on the version list after the version
status update, is zero (which is what lets the model update fire). -/
theorem c2_missing_file_unpublishes_model (bucket : String) (now : Nat) (q : ScanQuery)
    (body : ScanResult) (db : Db) (f : ModelFile) (v : ModelVersion)
    (hfind : db.files.find? (fileKeyMatch q) = some f)
    (hurl : ¬f.url = "") (hfid : ¬f.id = 0)
    (himp : ScannerTask.Import ∈
      q.tasks.getD [ScannerTask.Import, ScannerTask.Scan, ScannerTask.Hash])
    (hex : ¬body.fileExists = 1)
    (hv : db.versions.find? (fun w => decide (w.id = q.modelVersionId)) = some v)
    (hm0 : ¬v.modelId = 0)
    (hmrow : ∃ mo ∈ db.models, mo.id = v.modelId)
    (honly : ∀ w ∈ db.versions, w.modelId = v.modelId → w.status = ModelStatus.Published →
      w.id = q.modelVersionId) :
    (∀ w ∈ (scanResultHandler bucket now q body db).1.versions,
        w.id = q.modelVersionId → w.status = ModelStatus.Draft) ∧
      (∀ mo ∈ (scanResultHandler bucket now q body db).1.models,
        mo.id = v.modelId → mo.status = ModelStatus.Unpublished) ∧
      countPublishedVersions
        (updateVersionStatus q.modelVersionId ModelStatus.Draft db.versions) v.modelId = 0 := by
  have hcnt := count_zero_of_only q.modelVersionId v.modelId db.versions honly
  rw [scanResultHandler_found bucket now q body db f hfind hurl hfid]
  refine ⟨?_, ?_, hcnt⟩
  · rw [scanResultCore_versions, if_pos ⟨himp, hex⟩, unpublish_versions]
    exact updateVersionStatus_mem_status _ _ _
  · rw [scanResultCore_models, if_pos ⟨himp, hex⟩,
      unpublish_models_of_count_zero q.modelVersionId db v hv hm0 hmrow hcnt]
    exact setModelUnpublished_mem _ _

theorem c2_missing_file_unpublishes_model_witness :
    (dbC2.versions.find? (fun w => decide (w.id = qC2.modelVersionId)) = some vC2) ∧
    (∀ w ∈ (scanResultHandler "model-share" 0 qC2 bodyC2 dbC2).1.versions,
        w.id = qC2.modelVersionId → w.status = ModelStatus.Draft) ∧
      (∀ mo ∈ (scanResultHandler "model-share" 0 qC2 bodyC2 dbC2).1.models,
        mo.id = vC2.modelId → mo.status = ModelStatus.Unpublished) ∧
      countPublishedVersions
        (updateVersionStatus qC2.modelVersionId ModelStatus.Draft dbC2.versions)
        vC2.modelId = 0 :=
  ⟨by decide,
    c2_missing_file_unpublishes_model "model-share" 0 qC2 bodyC2 dbC2 fC2 vC2
      (by decide) (by decide) (by decide) (by decide) (by decide) (by decide) (by decide)
      ⟨mC2, by simp [dbC2], by decide⟩ (by simp [dbC2, vC2, qC2])⟩

/-- C3: for an intake call whose tasks include Import and whose payload
reports `fileExists` false, if the owning model has another `Published`
version, the handler leaves the model table completely unchanged while the
affected version's status becomes `Draft`. -/
theorem c3_missing_file_keeps_model_published (bucket : String) (now : Nat) (q : ScanQuery)
    (body : ScanResult) (db : Db) (f : ModelFile) (v : ModelVersion)
    (hfind : db.files.find? (fileKeyMatch q) = some f)
    (hurl : ¬f.url = "") (hfid : ¬f.id = 0)
    (himp : ScannerTask.Import ∈
      q.tasks.getD [ScannerTask.Import, ScannerTask.Scan, ScannerTask.Hash])
    (hex : ¬body.fileExists = 1)
    (hv : db.versions.find? (fun w => decide (w.id = q.modelVersionId)) = some v)
    (hother : ∃ w ∈ db.versions, ¬w.id = q.modelVersionId ∧ w.modelId = v.modelId ∧
      w.status = ModelStatus.Published) :
    (scanResultHandler bucket now q body db).1.models = db.models ∧
      ∀ w ∈ (scanResultHandler bucket now q body db).1.versions,
        w.id = q.modelVersionId → w.status = ModelStatus.Draft := by
  rw [scanResultHandler_found bucket now q body db f hfind hurl hfid]
  constructor
  · rw [scanResultCore_models, if_pos ⟨himp, hex⟩]
    rcases hother with ⟨w, hw, hwid, hwm, hwp⟩
    exact unpublish_models_of_other_published q.modelVersionId db v w hv hw hwid hwm hwp
  · rw [scanResultCore_versions, if_pos ⟨himp, hex⟩, unpublish_versions]
    exact updateVersionStatus_mem_status _ _ _

theorem c3_missing_file_keeps_model_published_witness :
    (dbC3.versions.find? (fun w => decide (w.id = qC2.modelVersionId)) = some vC2) ∧
    (scanResultHandler "model-share" 0 qC2 bodyC2 dbC3).1.models = dbC3.models ∧
      ∀ w ∈ (scanResultHandler "model-share" 0 qC2 bodyC2 dbC3).1.versions,
        w.id = qC2.modelVersionId → w.status = ModelStatus.Draft :=
  ⟨by decide,
    c3_missing_file_keeps_model_published "model-share" 0 qC2 bodyC2 dbC3 fC2 vC2
      (by decide) (by decide) (by decide) (by decide) (by decide) (by decide)
      ⟨vC3b, by simp [dbC3], by decide, by decide, by decide⟩⟩

/-- C10: the unpublish cascade is idempotent — running it twice on any
database state equals running it once — and the version update sets the
status of the row with the given id to `Draft` unconditionally, whatever the
previous status was. -/
theorem c10_unpublish_idempotent (mvId : Nat) (db : Db) :
    unpublish mvId (unpublish mvId db) = unpublish mvId db ∧
      ∀ v ∈ (unpublish mvId db).versions, v.id = mvId → v.status = ModelStatus.Draft := by
  constructor
  · have hfix : updateVersionStatus mvId ModelStatus.Draft (unpublish mvId db).versions
        = (unpublish mvId db).versions := by
      rw [unpublish_versions, updateVersionStatus_idem]
    rw [unpublish_of_fixed mvId _ hfix]
    unfold unpublish
    exact unpublishModelPhase_idem mvId _
  · rw [unpublish_versions]
    exact updateVersionStatus_mem_status _ _ _

theorem c10_unpublish_idempotent_witness :
    unpublish 10 (unpublish 10 dbC2) = unpublish 10 dbC2 ∧
      ({ id := 10, modelId := 3, status := ModelStatus.Draft } : ModelVersion).status
        = ModelStatus.Draft :=
  ⟨(c10_unpublish_idempotent 10 dbC2).1,
    (c10_unpublish_idempotent 10 dbC2).2
      { id := 10, modelId := 3, status := ModelStatus.Draft }
      (by rw [show (unpublish 10 dbC2).versions = [{ id := 10, modelId := 3, status := ModelStatus.Draft }] from by decide]; exact List.mem_singleton.mpr rfl)
      (by decide)⟩

/-- C5: an intake POST whose (modelVersionId, type, format) lookup key
matches no `ModelFile` row returns 404 and leaves the database bit-for-bit
unchanged: no file update, no hash deletion or insertion, no version or
model status change. -/
theorem c5_not_found_no_writes (bucket : String) (now : Nat) (q : ScanQuery)
    (body : ScanResult) (db : Db)
    (hfind : db.files.find? (fileKeyMatch q) = none) :
    scanResultHandler bucket now q body db = (db, 404) := by
  unfold scanResultHandler
  rw [hfind]

theorem c5_not_found_no_writes_witness :
    (({ files := [], hashes := [], versions := [], models := [] } : Db).files.find?
        (fileKeyMatch qC2) = none) ∧
    scanResultHandler "model-share" 0 qC2 bodyC2
        { files := [], hashes := [], versions := [], models := [] }
      = ({ files := [], hashes := [], versions := [], models := [] }, 404) :=
  ⟨rfl, c5_not_found_no_writes "model-share" 0 qC2 bodyC2
    { files := [], hashes := [], versions := [], models := [] } rfl⟩

theorem scanResultCore_hashes_hash_task (bucket : String) (now : Nat) (q : ScanQuery)
    (body : ScanResult) (f : ModelFile) (db : Db) (hs : List (ModelHashType × String))
    (hHash : ScannerTask.Hash ∈
      q.tasks.getD [ScannerTask.Import, ScannerTask.Scan, ScannerTask.Hash])
    (hbh : body.hashes = some hs) :
    (scanResultCore bucket now q body f db).1.hashes =
      db.hashes.filter (fun h => decide (¬h.fileId = f.id)) ++
        hs.map (fun p => ({ fileId := f.id, type := p.1, hash := p.2 } : ModelHashRow)) := by
  unfold scanResultCore
  dsimp only
  rw [if_pos hHash, hbh]
  dsimp only
  repeat' split
  all_goals (try rw [unpublish_hashes])
  all_goals rfl

/-- C4: after an intake call whose tasks include Hash and whose payload
carries a non-empty hash map, the hash rows stored for the file are exactly
the supplied entries: every previously stored hash row for that file is gone
(including algorithms absent from the new map), each supplied entry is
present, and — as the supplied map has distinct algorithm keys — each is
present exactly once. -/
theorem c4_hashes_replaced (bucket : String) (now : Nat) (q : ScanQuery)
    (body : ScanResult) (db : Db) (f : ModelFile) (hs : List (ModelHashType × String))
    (hfind : db.files.find? (fileKeyMatch q) = some f)
    (hurl : ¬f.url = "") (hfid : ¬f.id = 0)
    (hHash : ScannerTask.Hash ∈
      q.tasks.getD [ScannerTask.Import, ScannerTask.Scan, ScannerTask.Hash])
    (hbh : body.hashes = some hs)
    (hne : ¬hs = [])
    (hnd : (hs.map Prod.fst).Nodup) :
    ((scanResultHandler bucket now q body db).1.hashes.filter
        (fun h => decide (h.fileId = f.id)))
      = hs.map (fun p => ({ fileId := f.id, type := p.1, hash := p.2 } : ModelHashRow)) ∧
    (((scanResultHandler bucket now q body db).1.hashes.filter
        (fun h => decide (h.fileId = f.id))).map ModelHashRow.type).Nodup := by
  rw [scanResultHandler_found bucket now q body db f hfind hurl hfid,
    scanResultCore_hashes_hash_task bucket now q body f db hs hHash hbh]
  have hfil : (db.hashes.filter (fun h => decide (¬h.fileId = f.id))).filter
      (fun h => decide (h.fileId = f.id)) = [] := by
    rw [List.filter_eq_nil_iff]
    intro a ha
    have := (List.mem_filter.mp ha).2
    simp only [decide_eq_true_eq] at this ⊢
    exact this
  have hmap : (hs.map (fun p => ({ fileId := f.id, type := p.1, hash := p.2 } : ModelHashRow))).filter
      (fun h => decide (h.fileId = f.id)) = hs.map
      (fun p => ({ fileId := f.id, type := p.1, hash := p.2 } : ModelHashRow)) := by
    rw [List.filter_eq_self]
    intro a ha
    rcases List.mem_map.mp ha with ⟨p, _, rfl⟩
    exact decide_eq_true rfl
  rw [List.filter_append, hfil, hmap, List.nil_append]
  refine ⟨rfl, ?_⟩
  rw [List.map_map]
  exact hnd

theorem c4_hashes_replaced_witness :
    (bodyC4.hashes = some [(ModelHashType.SHA256, "abc123"), (ModelHashType.CRC32, "9f")]) ∧
    ((scanResultHandler "model-share" 0 qC4 bodyC4 dbC4).1.hashes.filter
        (fun h => decide (h.fileId = fC2.id)))
      = [(ModelHashType.SHA256, "abc123"), (ModelHashType.CRC32, "9f")].map
          (fun p => ({ fileId := fC2.id, type := p.1, hash := p.2 } : ModelHashRow)) ∧
    (((scanResultHandler "model-share" 0 qC4 bodyC4 dbC4).1.hashes.filter
        (fun h => decide (h.fileId = fC2.id))).map ModelHashRow.type).Nodup :=
  ⟨rfl,
    (c4_hashes_replaced "model-share" 0 qC4 bodyC4 dbC4 fC2
      [(ModelHashType.SHA256, "abc123"), (ModelHashType.CRC32, "9f")]
      (by decide) (by decide) (by decide) (by decide) rfl (by decide) (by decide)).1,
    (c4_hashes_replaced "model-share" 0 qC4 bodyC4 dbC4 fC2
      [(ModelHashType.SHA256, "abc123"), (ModelHashType.CRC32, "9f")]
      (by decide) (by decide) (by decide) (by decide) rfl (by decide) (by decide)).2⟩

theorem examine_empty (body : ScanResult)
    (hpend : ¬body.picklescanExitCode = ScanExitCode.Pending)
    (hd : body.picklescanDangerousImports.getD [] = [])
    (hg : body.picklescanGlobalImports.getD [] = []) :
    examinePickleScanMessage body =
      { pickleScanMessage := some "No Pickle imports", hasDanger := false,
        dImports := [], gImports := [] } := by
  unfold examinePickleScanMessage
  rw [if_neg hpend]
  dsimp only
  rw [hd, hg]
  rfl

theorem importUpdate_isEmpty (bucket fileUrl : String) (body : ScanResult) (u0 : FileUpdate) :
    (importUpdate bucket fileUrl body u0).isEmpty = false := by
  unfold importUpdate FileUpdate.isEmpty
  simp

theorem scanUpdate_isEmpty (now : Nat) (body : ScanResult) :
    (scanUpdate now body).isEmpty = false := by
  unfold scanUpdate FileUpdate.isEmpty
  simp

theorem accumulatedUpdate_isEmpty_import (bucket : String) (now : Nat)
    (tasks : List ScannerTask) (fileUrl : String) (body : ScanResult)
    (himp : ScannerTask.Import ∈ tasks) :
    (accumulatedUpdate bucket now tasks fileUrl body).isEmpty = false := by
  unfold accumulatedUpdate
  dsimp only
  rw [if_pos himp, importUpdate_isEmpty]

theorem accumulatedUpdate_isEmpty_scan (bucket : String) (now : Nat)
    (tasks : List ScannerTask) (fileUrl : String) (body : ScanResult)
    (hscan : ScannerTask.Scan ∈ tasks) :
    (accumulatedUpdate bucket now tasks fileUrl body).isEmpty = false := by
  unfold accumulatedUpdate
  dsimp only
  by_cases himp : ScannerTask.Import ∈ tasks
  · rw [if_pos himp, importUpdate_isEmpty]
  · rw [if_neg himp, if_pos hscan, scanUpdate_isEmpty]

theorem accumulatedUpdate_url_import (bucket : String) (now : Nat)
    (tasks : List ScannerTask) (fileUrl : String) (body : ScanResult)
    (himp : ScannerTask.Import ∈ tasks) (hex1 : body.fileExists = 1) :
    (accumulatedUpdate bucket now tasks fileUrl body).url =
      (if !(strIncludes fileUrl bucket) && strIncludes body.url bucket then some body.url
       else none) := by
  unfold accumulatedUpdate importUpdate
  dsimp only
  rw [if_pos himp]
  dsimp only
  rw [hex1]
  have h0 : (if ScannerTask.Scan ∈ tasks then scanUpdate now body else {}).url
      = (none : Option String) := by
    split <;> rfl
  rw [h0]
  simp

theorem accumulatedUpdate_pickleScanMessage_scan (bucket : String) (now : Nat)
    (tasks : List ScannerTask) (fileUrl : String) (body : ScanResult)
    (hscan : ScannerTask.Scan ∈ tasks) :
    (accumulatedUpdate bucket now tasks fileUrl body).pickleScanMessage =
      (examinePickleScanMessage body).pickleScanMessage := by
  unfold accumulatedUpdate importUpdate
  dsimp only
  rw [if_pos hscan]
  split <;> rfl

theorem scanResultCore_files (bucket : String) (now : Nat) (q : ScanQuery)
    (body : ScanResult) (f : ModelFile) (db : Db) :
    (scanResultCore bucket now q body f db).1.files =
      (if (accumulatedUpdate bucket now
            (q.tasks.getD [ScannerTask.Import, ScannerTask.Scan, ScannerTask.Hash]) f.url
            body).isEmpty = true then db.files
       else db.files.map (fun g => if fileKeyMatch q g then
           applyFileUpdate (accumulatedUpdate bucket now
             (q.tasks.getD [ScannerTask.Import, ScannerTask.Scan, ScannerTask.Hash]) f.url
             body) g
         else g)) := by
  unfold scanResultCore
  dsimp only
  repeat' split
  all_goals (try rw [unpublish_files])
  all_goals rfl

theorem list_map_congruent {α β : Type} (f g : α → β) (l : List α) (h : ∀ a, f a = g a) :
    l.map f = l.map g :=
  congrArg (fun fn => List.map fn l) (funext h)

/-- C6: for an intake call whose tasks include Import and whose payload
reports the file as existing (`fileExists = 1`), a file row matching the
lookup key has its URL replaced by the scanner's URL exactly when the
current URL does not contain the permanent bucket and the scanner's URL
does; in every other case (all other rows included) the stored URL is
unchanged, so the promotion is one-way and never regresses. -/
theorem c6_url_promotion_one_way (bucket : String) (now : Nat) (q : ScanQuery)
    (body : ScanResult) (db : Db) (f : ModelFile)
    (hfind : db.files.find? (fileKeyMatch q) = some f)
    (hurl : ¬f.url = "") (hfid : ¬f.id = 0)
    (himp : ScannerTask.Import ∈
      q.tasks.getD [ScannerTask.Import, ScannerTask.Scan, ScannerTask.Hash])
    (hex1 : body.fileExists = 1) :
    (scanResultHandler bucket now q body db).1.files.map ModelFile.url =
      db.files.map (fun g => if fileKeyMatch q g = true then
          (if (!strIncludes f.url bucket && strIncludes body.url bucket) = true then body.url
           else g.url)
        else g.url) := by
  rw [scanResultHandler_found bucket now q body db f hfind hurl hfid, scanResultCore_files,
    if_neg (by rw [accumulatedUpdate_isEmpty_import bucket now _ f.url body himp]; exact
      Bool.false_ne_true)]
  rw [List.map_map]
  apply list_map_congruent
  intro g
  simp only [Function.comp_apply]
  by_cases hk : fileKeyMatch q g = true
  · rw [if_pos hk, if_pos hk]
    unfold applyFileUpdate
    dsimp only
    rw [accumulatedUpdate_url_import bucket now _ f.url body himp hex1]
    split <;> rfl
  · rw [if_neg hk, if_neg hk]

theorem c6_url_promotion_one_way_witness :
    (bodyC6.fileExists = 1) ∧
    (scanResultHandler "model-share" 0 qC6 bodyC6 dbC6).1.files.map ModelFile.url =
      dbC6.files.map (fun g => if fileKeyMatch qC6 g = true then
          (if (!strIncludes fC6.url "model-share" && strIncludes bodyC6.url "model-share") = true
           then bodyC6.url
           else g.url)
        else g.url) :=
  ⟨rfl, c6_url_promotion_one_way "model-share" 0 qC6 bodyC6 dbC6 fC6
    (by decide) (by decide) (by decide) (by decide) rfl⟩

/-- C7 (amended): for an intake call whose tasks include Scan, whose
picklescan exit code is not the pending code, and whose dangerous/global
lists of imports are both empty or absent, the message stored for every file row
matching the lookup key is exactly "No Pickle imports" and the danger flag
is false.  (The pending exit code is excluded: there the handler stores no
message at all, see the counterexample.) -/
theorem c7_empty_imports_message (bucket : String) (now : Nat) (q : ScanQuery)
    (body : ScanResult) (db : Db) (f : ModelFile)
    (hfind : db.files.find? (fileKeyMatch q) = some f)
    (hurl : ¬f.url = "") (hfid : ¬f.id = 0)
    (hscan : ScannerTask.Scan ∈
      q.tasks.getD [ScannerTask.Import, ScannerTask.Scan, ScannerTask.Hash])
    (hpend : ¬body.picklescanExitCode = ScanExitCode.Pending)
    (hd : body.picklescanDangerousImports.getD [] = [])
    (hg : body.picklescanGlobalImports.getD [] = []) :
    (∀ g ∈ (scanResultHandler bucket now q body db).1.files, fileKeyMatch q g = true →
        g.pickleScanMessage = some "No Pickle imports") ∧
      (examinePickleScanMessage body).hasDanger = false := by
  have hex := examine_empty body hpend hd hg
  refine ⟨?_, by rw [hex]⟩
  rw [scanResultHandler_found bucket now q body db f hfind hurl hfid, scanResultCore_files,
    if_neg (by rw [accumulatedUpdate_isEmpty_scan bucket now _ f.url body hscan]; exact
      Bool.false_ne_true)]
  intro g hget hk
  rcases List.mem_map.mp hget with ⟨w, _, rfl⟩
  by_cases hkw : fileKeyMatch q w = true
  · rw [if_pos hkw]
    unfold applyFileUpdate
    dsimp only
    rw [accumulatedUpdate_pickleScanMessage_scan bucket now _ f.url body hscan, hex]
  · rw [if_neg hkw] at hk
    exact absurd hk hkw

theorem c7_empty_imports_message_witness :
    (¬bodyC7.picklescanExitCode = ScanExitCode.Pending) ∧
    (∀ g ∈ (scanResultHandler "model-share" 7 qC7 bodyC7 dbC2).1.files,
        fileKeyMatch qC7 g = true → g.pickleScanMessage = some "No Pickle imports") ∧
      (examinePickleScanMessage bodyC7).hasDanger = false :=
  ⟨by decide, c7_empty_imports_message "model-share" 7 qC7 bodyC7 dbC2 fC2
    (by decide) (by decide) (by decide) (by decide) (by decide) rfl rfl⟩

/-- C7, counterexample to the unamended claim: with both import lists absent
but a pending picklescan exit code (-1), the handler stores no pickle scan
message at all — the file's message stays `none`, not "No Pickle imports". -/
theorem c7_counterexample_pending_exit_code :
    ((scanResultHandler "model-share" 7 qC7
        { url := "", fileExists := 1, picklescanExitCode := -1, clamscanExitCode := 0,
          clamscanOutput := "" } dbC2).1.files.map ModelFile.pickleScanMessage = [none]) ∧
      ¬((scanResultHandler "model-share" 7 qC7
          { url := "", fileExists := 1, picklescanExitCode := -1, clamscanExitCode := 0,
            clamscanOutput := "" } dbC2).1.files.map ModelFile.pickleScanMessage
        = [some "No Pickle imports"]) := by
  constructor
  · decide
  · decide

/-- C1, evaluated at the failing input: a Scan-task intake whose picklescan
exit code is 0 (success) and whose single global import processes to the
special-import allowlist entry.  The reclassification fires (`hasDanger` is
true, and the raw blob's exit code is overridden to Danger), yet the stored
`pickleScanResult` verdict is `Success`, not `Danger`: scan-result.ts
computes the verdict column from the exit code on line 38, before line 42
mutates the exit code. -/
theorem c1_special_import_verdict_stays_success :
    (examinePickleScanMessage bodyC1).hasDanger = true ∧
    ((scanResultHandler "model-share" 7 qC1 bodyC1 dbC2).1.files.map
        ModelFile.pickleScanResult = [ScanResultCode.Success]) ∧
      ¬((scanResultHandler "model-share" 7 qC1 bodyC1 dbC2).1.files.map
          ModelFile.pickleScanResult = [ScanResultCode.Danger]) ∧
    ((scanResultHandler "model-share" 7 qC1 bodyC1 dbC2).1.files.map
        (fun g => g.rawScanResult.map ScanResult.picklescanExitCode)
      = [some ScanExitCode.Danger]) := by
  refine ⟨by decide, by decide, by decide, by decide⟩

theorem append_assoc_fold (p e : String) :
    ((p ++ "-inpainting") ++ ".") ++ e = p ++ ("-inpainting." ++ e) := by
  rw [String.append_assoc, String.append_assoc]
  congr 1

/-- C8: the filename derivation is pure string logic and satisfies the two
spec examples.  (a) For a TextualInversion model whose version's first
trained word is "foo" and a file of type "Negative", the derived name is
`foo-neg.<ext>` where `<ext>` is the last dot-separated component of the
stored name — for any `filenamize`, model name, version name and stored
name.  (b) For a non-TextualInversion model and a file whose type is in the
vocabulary but is neither "Training Data" nor "VAE", if the stored name
contains "-inpainting" the derived name ends in `-inpainting.<ext>`. -/
theorem c8_filename_derivation :
    (∀ (filenamize : String → String) (mname vname fname : String) (rest : List String),
      getDownloadFilename filenamize { name := mname, type := ModelType.TextualInversion }
          { name := vname, trainedWords := "foo" :: rest } { name := fname, type := "Negative" }
        = "foo-neg." ++ jsPopLast ((splitOnChar '.' fname.data).map String.mk)) ∧
    (∀ (filenamize : String → String) (mname vname fname ftype : String) (mtype : ModelType)
        (tws : List String),
      ¬mtype = ModelType.TextualInversion → ftype ∈ modelFileTypes →
        ¬ftype = "Training Data" → ¬ftype = "VAE" →
        strIncludes fname "-inpainting" = true →
        ∃ p : String,
          getDownloadFilename filenamize { name := mname, type := mtype }
              { name := vname, trainedWords := tws } { name := fname, type := ftype }
            = p ++ ("-inpainting." ++ jsPopLast ((splitOnChar '.' fname.data).map String.mk))) := by
  constructor
  · intro filenamize mname vname fname rest
    unfold getDownloadFilename
    dsimp only
    rw [if_neg (by decide), if_neg (by decide : ¬("Negative" = "Training Data")),
      if_pos (rfl : ModelType.TextualInversion = ModelType.TextualInversion)]
    dsimp only [List.head?]
    rw [if_neg (by decide : ¬("foo" = "")), if_pos (rfl : "Negative" = "Negative")]
    congr 1
  · intro filenamize mname vname fname ftype mtype tws hmt hmem hTD hVAE hinc
    unfold getDownloadFilename
    dsimp only
    rw [if_neg (not_not_intro (List.elem_eq_true_of_mem hmem)), if_neg hTD, if_neg hmt,
      if_pos hVAE, if_pos hinc]
    exact ⟨filenamize mname ++ "_" ++ jsReplaceFirst (filenamize vname) (filenamize mname) "",
      append_assoc_fold _ _⟩

theorem c8_filename_derivation_witness :
    (getDownloadFilename id { name := "mdl", type := ModelType.TextualInversion }
        { name := "v1", trainedWords := ["foo"] } { name := "embedding.pt", type := "Negative" }
      = "foo-neg." ++ jsPopLast ((splitOnChar '.' "embedding.pt".data).map String.mk)) ∧
    ((¬ModelType.Checkpoint = ModelType.TextualInversion) ∧
      ∃ p : String,
        getDownloadFilename id { name := "my model", type := ModelType.Checkpoint }
            { name := "v2", trainedWords := [] }
            { name := "mymodel-inpainting.ckpt", type := "Model" }
          = p ++ ("-inpainting." ++
              jsPopLast ((splitOnChar '.' "mymodel-inpainting.ckpt".data).map String.mk))) :=
  ⟨c8_filename_derivation.1 id "mdl" "v1" "embedding.pt" [],
    ⟨by decide,
      c8_filename_derivation.2 id "my model" "v2" "mymodel-inpainting.ckpt" "Model"
        ModelType.Checkpoint [] (by decide) (by decide) (by decide) (by decide) (by decide)⟩⟩

/-- C9: a file whose declared type is outside the fixed model-file-type
vocabulary makes the filename derivation return the stored name completely
unchanged, whatever the model name, model type, version name or trained
words are. -/
theorem c9_unknown_type_keeps_stored_name (filenamize : String → String) (model : DlModel)
    (modelVersion : DlModelVersion) (file : DlFile)
    (hnot : ¬file.type ∈ modelFileTypes) :
    getDownloadFilename filenamize model modelVersion file = file.name := by
  unfold getDownloadFilename
  rw [if_pos (fun h => hnot (List.mem_of_elem_eq_true h))]

theorem c9_unknown_type_keeps_stored_name_witness :
    (¬("Bogus Type" ∈ modelFileTypes)) ∧
    getDownloadFilename id { name := "mdl", type := ModelType.Checkpoint }
        { name := "v1", trainedWords := ["foo"] } { name := "weird-inpainting.bin", type := "Bogus Type" }
      = "weird-inpainting.bin" :=
  ⟨by decide,
    c9_unknown_type_keeps_stored_name id { name := "mdl", type := ModelType.Checkpoint }
      { name := "v1", trainedWords := ["foo"] }
      { name := "weird-inpainting.bin", type := "Bogus Type" } (by decide)⟩
